import Mathlib

/-!
# Verification of the YouTube downloader pipeline

Shallow embedding of the two entry points of the repository
(`app.py`, the Flask/WebSocket front end, and `yd.py`, the terminal
front end) together with proofs about the claims of the specification.

Conventions used throughout:
* Python strings are modelled as `String` (or `List Char` where
  character-level processing is required).
* Machine-level details that no claim depends on (float formatting of
  the estimated size, the WebSocket payloads, colour codes) are kept as
  presentation-only events.
* Fallible Python code is modelled with `Except`/`Option`; an exception
  reaching a `try`/`except` block is modelled by the corresponding
  error branch.
-/

/-! ## Filename policy: `sanitize_filename` (identical in app.py:28-30 and yd.py:17-19)

Python: `re.sub(r'[\\/*?:"<>|]', "", name).strip()`.
`str.strip()` with no argument removes surrounding whitespace. -/

/-- The characters removed by the sanitizer: `\ / * ? : " < > |`. -/
def illegalChars : List Char := ['\\', '/', '*', '?', ':', '"', '<', '>', '|']

/-- `re.sub(r'[\\/*?:"<>|]', "", ·)` on a character list: remove every
occurrence of an illegal character. -/
def removeIllegalL (l : List Char) : List Char :=
  l.filter (fun c => !(illegalChars.contains c))

/-- Left part of Python `str.strip()`: drop leading whitespace. -/
def lstripL (l : List Char) : List Char := l.dropWhile Char.isWhitespace

/-- Right part of Python `str.strip()`: drop trailing whitespace. -/
def rstripL (l : List Char) : List Char :=
  (l.reverse.dropWhile Char.isWhitespace).reverse

/-- Python `str.strip()` (no argument): drop surrounding whitespace. -/
def stripL (l : List Char) : List Char := rstripL (lstripL l)

/-- `sanitize_filename` from app.py:28-30 / yd.py:17-19 on a character list. -/
def sanitize_filenameL (l : List Char) : List Char := stripL (removeIllegalL l)

/-- `sanitize_filename(name)`: remove illegal filename characters, then strip
surrounding whitespace (app.py:28-30, yd.py:17-19). -/
def sanitize_filename (s : String) : String := ⟨sanitize_filenameL s.data⟩

/-! ## URL normalizer: `clean_youtube_url` (app.py:43-51, yd.py:32-40) -/

/-- Character class `[a-zA-Z0-9_-]` of the short-link regex. -/
def isIdChar (c : Char) : Bool := c.isAlpha || c.isDigit || c == '_' || c == '-'

/-- Model of `re.match(r"https?://youtu\.be/([a-zA-Z0-9_-]{11})", url)`.
`re.match` anchors at the start of the string only, so the pattern matches a
prefix of the input; the group is the 11 identifier characters following the
scheme and host.  Returns the captured group on success. -/
def shortLinkId (l : List Char) : Option (List Char) :=
  let rest? : Option (List Char) :=
    if l.take 17 = "https://youtu.be/".data then some (l.drop 17)
    else if l.take 16 = "http://youtu.be/".data then some (l.drop 16)
    else none
  match rest? with
  | none => none
  | some r =>
    let vid := r.take 11
    if vid.length = 11 && vid.all isIdChar then some vid else none

/-- Python `str.split(sep)` for a single-character separator. -/
def pySplit : List Char → Char → List (List Char)
  | [], _ => [[]]
  | c :: t, sep =>
    if c = sep then [] :: pySplit t sep
    else
      match pySplit t sep with
      | [] => [[c]]
      | h :: r => (c :: h) :: r

/-- Python `str.replace(old, new)` for a non-empty `old`: replace every
non-overlapping occurrence, scanning left to right.  (For `old = []` Python
inserts `new` between characters; the embedding copies the string unchanged —
the pipelines only call this with `old = ".mp4"`.) -/
def pyReplaceAux (old new : List Char) : Nat → List Char → List Char
  | _, [] => []
  | 0, l => l
  | fuel + 1, c :: t =>
    if old ≠ [] ∧ (c :: t).take old.length = old then
      new ++ pyReplaceAux old new fuel ((c :: t).drop old.length)
    else c :: pyReplaceAux old new fuel t

/-- Python `str.replace(old, new)`; the fuel `l.length` is enough because
each step consumes at least one character. -/
def pyReplace (old new l : List Char) : List Char :=
  pyReplaceAux old new l.length l

/-- Python `needle in hay` substring test. -/
def hasSubstr : List Char → List Char → Bool
  | [], pat => pat.isEmpty
  | c :: t, pat => (if (c :: t).take pat.length = pat then true else hasSubstr t pat)

/-- The canonical watch marker `"watch?v="`. -/
def watchMarker : List Char := "watch?v=".data

/-- `clean_youtube_url` from app.py:43-51 / yd.py:32-40:
if the short-link regex matches, rewrite to the canonical long form from the
captured identifier; otherwise if the string contains `"watch?v="`, keep
`url.split("&")[0]`; otherwise return the string unchanged. -/
def clean_youtube_url (l : List Char) : List Char :=
  match shortLinkId l with
  | some vid => "https://www.youtube.com/watch?v=".data ++ vid
  | none =>
    if hasSubstr l watchMarker then (pySplit l '&').headD l
    else l

/-- Modelled from the spec words of claim C7 (not from the source): after the
first occurrence of the watch marker, keep everything up to the first `&`
occurring after that marker, discarding all later query parameters. -/
def truncAfterMarker : List Char → List Char
  | [] => []
  | c :: t =>
    if (c :: t).take watchMarker.length = watchMarker then
      watchMarker ++ ((c :: t).drop watchMarker.length).takeWhile (fun x => x ≠ '&')
    else c :: truncAfterMarker t

/-- Modelled from the spec words of claim C7 (not from the source): the
normalizer as the claim literally states it, truncating at the first `&`
*after* the watch marker. -/
def claimedNormalize (l : List Char) : List Char :=
  match shortLinkId l with
  | some vid => "https://www.youtube.com/watch?v=".data ++ vid
  | none =>
    if hasSubstr l watchMarker then truncAfterMarker l
    else l

/-- The amended rule for claim C7: truncate at the first `&` anywhere in the
string (this is what `url.split("&")[0]` does). -/
def amendedNormalize (l : List Char) : List Char :=
  match shortLinkId l with
  | some vid => "https://www.youtube.com/watch?v=".data ++ vid
  | none =>
    if hasSubstr l watchMarker then l.takeWhile (fun c => c ≠ '&')
    else l

/-! ## Filename policy: `get_unique_path` (app.py:33-40, yd.py:22-29) -/

/-- Model of CPython `os.path.splitext` on a character list (separator `/`,
extension separator `.`): split at the last dot that lies after the last
slash, unless every character between that slash and the dot is itself a dot
(so that dotfiles such as `.bashrc` keep their name). -/
def splitextL (l : List Char) : List Char × List Char :=
  let r := l.reverse
  let extRev := r.takeWhile (fun c => c ≠ '.' && c ≠ '/')
  match r.drop extRev.length with
  | '.' :: rest =>
    let namePart := rest.takeWhile (fun c => c ≠ '/')
    if namePart.any (fun c => c ≠ '.') then
      (rest.reverse, '.' :: extRev.reverse)
    else (l, [])
  | _ => (l, [])

/-- `os.path.splitext` on `String`. -/
def splitext (s : String) : String × String :=
  let p := splitextL s.data
  (⟨p.1⟩, ⟨p.2⟩)

/-- Candidate sequence tried by `get_unique_path`: the original path, then
`base_1`, `base_2`, … with the counter inserted before the extension. -/
def uniqueCand (base ext p : String) : Nat → String
  | 0 => p
  | n + 1 => base ++ "_" ++ toString (n + 1) ++ ext

/-- The `while os.path.exists(path)` loop of `get_unique_path`, with explicit
fuel (the Python loop has no bound; it terminates as soon as a candidate does
not exist).  `fs` is the set of existing paths, modelled as a finite list. -/
def uniqueAux (fs : List String) (base ext : String) : String → Nat → Nat → String
  | path, _, 0 => path
  | path, counter, fuel + 1 =>
    if path ∈ fs then
      uniqueAux fs base ext (base ++ "_" ++ toString counter ++ ext) (counter + 1) fuel
    else path

/-- `get_unique_path` from app.py:33-40 / yd.py:22-29: split the path into
base and extension once, then append `_1`, `_2`, … until the path does not
exist.  The fuel `fs.length + 2` is enough for any run that terminates within
the claim's scope (a first free candidate exists). -/
def get_unique_path (fs : List String) (path : String) : String :=
  let be := splitext path
  uniqueAux fs be.1 be.2 path 1 (fs.length + 2)

/-! ### Quick sanity checks (concrete evaluations of the embeddings) -/

example : sanitize_filename "My: Video / Title?" = "My Video  Title" := by rfl

example : clean_youtube_url "https://youtu.be/abcdEFGH123".data
    = "https://www.youtube.com/watch?v=abcdEFGH123".data := by rfl

example : clean_youtube_url "https://www.youtube.com/watch?v=X&list=Y".data
    = "https://www.youtube.com/watch?v=X".data := by rfl

example : clean_youtube_url "https://example.com/page".data
    = "https://example.com/page".data := by rfl

example : splitext "downloads/song.mp4" = ("downloads/song", ".mp4") := by rfl

example : splitext ".bashrc" = (".bashrc", "") := by rfl

example : get_unique_path ["a.mp4", "a_1.mp4"] "a.mp4" = "a_2.mp4" := by rfl

example : get_unique_path ["b.mp4"] "a.mp4" = "a.mp4" := by rfl

namespace YTDL

/-! ## Data model: representations, catalog info, external world

The catalog service (pytubefix) is an external collaborator: it supplies a
`VideoInfo` per URL and performs the actual byte transfers.  The encoding
tool (ffmpeg) is external as well.  Both are modelled by an `Env` record of
oracles consulted by the pipelines. -/

/-- The kind of a pytubefix stream: adaptive video-only (`type="video"`,
`adaptive=True`), adaptive audio-only (`only_audio=True`), or progressive
(audio and video already muxed). -/
inductive SKind where
  | videoOnly
  | audioOnly
  | progressive
deriving DecidableEq

/-- One selectable encoded stream of the catalog.  `resolution` models the
numeric value `int(s.resolution.replace("p", ""))` (0 for audio streams) and
`abr` the numeric value of `s.abr` in kbps (0 for video streams);
`fileExtension` models `s.file_extension`; `filesize` models `s.filesize`
in bytes. -/
structure Rep where
  kind : SKind
  fileExtension : String
  resolution : Nat
  abr : Nat
  filesize : Nat
deriving DecidableEq

/-- The catalog's answer for one media URL: the `YouTube(url)` object fields
used by the pipelines. -/
structure VideoInfo where
  title : String
  author : String
  lengthSec : Nat
  thumbnailUrl : String
  streams : List Rep
deriving DecidableEq

/-- One member of a resolved playlist. -/
structure PlaylistItem where
  title : String
  watchUrl : String
deriving DecidableEq

/-- Outcome of `subprocess.run([...ffmpeg...], timeout=300)` in the web
audio-conversion path: a completed process with an exit code and captured
stderr, a `TimeoutExpired`, or another raised exception. -/
inductive ConvOutcome where
  | ret (code : Nat) (stderr : String)
  | timeout
  | raised (msg : String)
deriving DecidableEq

/-- The external world consulted by the pipelines.  `resolve` models
`YouTube(url)` (raising is the `error` branch); `download` models
`stream.download(output_path=dir, filename_prefix=pfx)` returning the local
path of the written file; `mergeOk` models whether the merge ffmpeg
invocation exits 0; `convWeb`/`convYd` model the audio-conversion ffmpeg runs
of the two front ends; `mp3Exists`/`mp3Size` model `os.path.exists` /
`os.path.getsize` queried after the conversion ran; `fs0` is the set of
already-existing files consulted by `get_unique_path`; `playlistResolve`
models `Playlist(url)` (title and ordered member list). -/
structure Env where
  resolve : String → Except String VideoInfo
  download : Rep → String → String → Except String String
  mergeOk : Bool
  convWeb : ConvOutcome
  convYd : Except String Nat
  mp3Exists : String → Bool
  mp3Size : String → Nat
  fs0 : List String
  playlistResolve : String → Except String (String × List PlaylistItem)

/-- Observable actions of one pipeline run, in order.  `emit`, `emitAvail`
and `emitEst` are presentation-only (WebSocket messages / terminal prints);
the remaining constructors are selections, transfers, external tool
invocations and file-system mutations. -/
inductive Ev where
  | emit (msg : String) (pct : Option Nat)
  | emitAvail (rs : List Nat)
  | emitEst (bytes : Nat)
  | select (r : Rep)
  | download (r : Rep) (dir : String) (pfx : String)
  | ffmpegMerge (videoPath audioPath outputPath : String)
  | ffmpegConv (inputPath outputPath : String)
  | remove (path : String)
  | saveThumb (url : String) (basename : String)
deriving DecidableEq

/-- Result dictionary returned by `download_video_web`:
`{"success": True, "filename": ..., "type": ...}` or
`{"success": False, "error": ...}`. -/
inductive Res where
  | success (filename : String) (rtype : String)
  | failure (error : String)
deriving DecidableEq

/-- Result of `download_playlist_web`. -/
inductive PRes where
  | pok (results : List Res)
  | perr (error : String)
deriving DecidableEq

/-- `os.path.basename`: the part of the path after the last `/`. -/
def basename (s : String) : String :=
  ⟨(s.data.reverse.takeWhile (fun c => c ≠ '/')).reverse⟩

/-- The downloads directory `DOWNLOADS_DIR` (both files join it from the
working directory; the constant name suffices for the claims). -/
def DOWNLOADS_DIR : String := "downloads"

/-- `tempfile.gettempdir()`. -/
def TMP_DIR : String := "tmp"

/-! ## Stream queries (pytubefix `StreamQuery` operations used by both files)

`order_by(attr)` sorts ascending by the numeric value of the attribute and
`.desc()` reverses; `.first()` is `head?`. -/

/-- `.order_by("resolution").desc()`. -/
def orderByResDesc (l : List Rep) : List Rep :=
  (List.insertionSort (fun a b => a.resolution ≤ b.resolution) l).reverse

/-- `.order_by("abr").desc()`. -/
def orderByAbrDesc (l : List Rep) : List Rep :=
  (List.insertionSort (fun a b => a.abr ≤ b.abr) l).reverse

/-- The stream-selection loop duplicated verbatim in app.py:188-195 and
yd.py:103-110: scan the (descending) adaptive mp4 video list and take the
first stream whose resolution is at most the target; if none qualifies fall
back to `video_streams.first()`. -/
def selectVideoStream (videoStreams : List Rep) (target : Nat) : Option Rep :=
  match videoStreams.find? (fun s => s.resolution ≤ target) with
  | some s => some s
  | none => videoStreams.head?

/-- The progressive fallback expression duplicated in app.py:199-203 and
yd.py:114-118: first a progressive mp4 stream at exactly the requested
resolution, otherwise the highest-resolution progressive stream overall. -/
def progFallbackStream (streams : List Rep) (target : Nat) : Option Rep :=
  match (orderByResDesc (streams.filter
      (fun s => s.kind == SKind.progressive && s.fileExtension == "mp4"
        && s.resolution == target))).head? with
  | some s => some s
  | none => (orderByResDesc (streams.filter (fun s => s.kind == SKind.progressive))).head?

/-- `sorted({s.resolution for s in streams.filter(adaptive=True, type="video")},
key=..., reverse=True)` — the available-resolutions list printed by yd.py:95
(computed but unused in app.py:177-180). -/
def availableRes (streams : List Rep) : List Nat :=
  (List.insertionSort (fun a b : Nat => a ≤ b)
    (((streams.filter (fun s => s.kind == SKind.videoOnly)).map
      (fun s => s.resolution)).dedup)).reverse

/-! ## Merge stage: `merge_audio_video` (identical in app.py:54-75 and yd.py:43-64)

`subprocess.run([...], check=True)` raises on a non-zero exit; on success the
two source files are removed (`os.remove` raises if the file is missing, and
any exception yields `False`).  The file system is threaded explicitly:
ffmpeg writes `outputPath`, and `os.remove` deletes an existing path. -/

/-- `merge_audio_video(video_path, audio_path, output_path)`.  Returns the
boolean result, the resulting file system, and the trace of actions. -/
def merge_audio_video (mergeOk : Bool) (fs : List String)
    (videoPath audioPath outputPath : String) : Bool × List String × List Ev :=
  if mergeOk then
    let fs1 := outputPath :: fs
    if videoPath ∈ fs1 then
      let fs2 := fs1.erase videoPath
      if audioPath ∈ fs2 then
        (true, fs2.erase audioPath,
          [Ev.ffmpegMerge videoPath audioPath outputPath,
           Ev.remove videoPath, Ev.remove audioPath])
      else
        (false, fs2, [Ev.ffmpegMerge videoPath audioPath outputPath, Ev.remove videoPath])
    else (false, fs1, [Ev.ffmpegMerge videoPath audioPath outputPath])
  else (false, fs, [Ev.ffmpegMerge videoPath audioPath outputPath])

/-! ## Acquisition progress callback (app.py:95-99)

```
def progress_callback(stream, chunk, bytes_remaining):
    total = stream.filesize
    downloaded = total - bytes_remaining
    percent = int((downloaded / total) * 100)
    emit_progress(f"Downloading... {percent}%", percent)
```

Python `/` raises `ZeroDivisionError` when `total == 0`; otherwise
`int((downloaded / total) * 100)` is the integer part of the ratio, modelled
as natural floor division (the float detour is not modelled). -/

/-- The per-chunk progress callback of the web front end: returns the
percentage it reports, or the raised error. -/
def progress_callback (filesize bytesRemaining : Nat) : Except String Nat :=
  let total := filesize
  let downloaded := total - bytesRemaining
  if total == 0 then Except.error "ZeroDivisionError: division by zero"
  else Except.ok (downloaded * 100 / total)

/-! ## Web front end: `download_video_web` (app.py:90-232)

The function is one big `try`/`except`: every exception raised inside is
converted into a `{"success": False, "error": ...}` dictionary, so the
embedding is a total function returning a `Res` and the trace of events. -/

/-- The audio-only branch of `download_video_web` (app.py:129-174): pick the
highest-bitrate audio-only stream, download it into the downloads directory,
convert to mp3 with a 5-minute timeout, and delete the input only when the
tool exited 0 and the output exists with non-zero size. -/
def webAudioBranch (env : Env) (yt : VideoInfo) : Res × List Ev :=
  let pre := [Ev.emit "Downloading audio only..." (some 20)]
  match (orderByAbrDesc (yt.streams.filter (fun s => s.kind == SKind.audioOnly))).head? with
  | none =>
    (Res.failure "No audio stream available",
      pre ++ [Ev.emit "Error: No audio stream found" (some 0)])
  | some st =>
    let pre := pre ++ [Ev.select st]
    match env.download st DOWNLOADS_DIR "" with
    | Except.error e =>
      (Res.failure e,
        pre ++ [Ev.download st DOWNLOADS_DIR "", Ev.emit ("Error: " ++ e) (some 0)])
    | Except.ok audioFilePath =>
      let mp3Path := (splitext audioFilePath).1 ++ ".mp3"
      let pre := pre ++ [Ev.download st DOWNLOADS_DIR "",
        Ev.emit "Converting to MP3..." (some 80), Ev.ffmpegConv audioFilePath mp3Path]
      match env.convWeb with
      | ConvOutcome.timeout =>
        (Res.failure "Audio conversion timed out",
          pre ++ [Ev.emit "Error: Conversion timeout" (some 0)])
      | ConvOutcome.raised m =>
        (Res.failure ("Conversion error: " ++ m),
          pre ++ [Ev.emit ("Error: " ++ m) (some 0)])
      | ConvOutcome.ret code stderr =>
        if code ≠ 0 then
          (Res.failure ("Audio conversion failed: " ++ ⟨stderr.data.take 100⟩),
            pre ++ [Ev.emit ("Conversion failed: " ++ ⟨stderr.data.take 100⟩) (some 0)])
        else if env.mp3Exists mp3Path && env.mp3Size mp3Path > 0 then
          (Res.success (basename mp3Path) "audio",
            pre ++ [Ev.remove audioFilePath,
              Ev.saveThumb yt.thumbnailUrl (basename mp3Path),
              Ev.emit "Download complete!" (some 100)])
        else
          (Res.failure "MP3 conversion produced empty file",
            pre ++ [Ev.emit "Error: MP3 file not created properly" (some 0)])

/-- The video branch of `download_video_web` (app.py:176-228): filter and
sort the adaptive streams, pick a video stream under the target ceiling (with
fallback to the highest), pair the best audio, or fall back to a progressive
stream; then download both, uniquify the output name, and merge. -/
def webVideoBranch (env : Env) (yt : VideoInfo) (target : Nat) : Res × List Ev :=
  let videoStreams := orderByResDesc (yt.streams.filter
    (fun s => s.kind == SKind.videoOnly && s.fileExtension == "mp4"))
  let audioStreams := orderByAbrDesc (yt.streams.filter
    (fun s => s.kind == SKind.audioOnly))
  match selectVideoStream videoStreams target, audioStreams with
  | some sv, a0 :: _ =>
    let pre := [Ev.select sv, Ev.select a0,
      Ev.emit ("Downloading video (" ++ toString sv.resolution ++ "p)...") (some 30)]
    match env.download sv TMP_DIR "video_" with
    | Except.error e =>
      (Res.failure e,
        pre ++ [Ev.download sv TMP_DIR "video_", Ev.emit ("Error: " ++ e) (some 0)])
    | Except.ok videoPath =>
      let pre := pre ++ [Ev.download sv TMP_DIR "video_",
        Ev.emit ("Downloading audio (" ++ toString a0.abr ++ "kbps)...") (some 60)]
      match env.download a0 TMP_DIR "audio_" with
      | Except.error e =>
        (Res.failure e,
          pre ++ [Ev.download a0 TMP_DIR "audio_", Ev.emit ("Error: " ++ e) (some 0)])
      | Except.ok audioPath =>
        let outputFile := get_unique_path env.fs0
          (DOWNLOADS_DIR ++ "/" ++ sanitize_filename yt.title
            ++ " (" ++ toString sv.resolution ++ "p).mp4")
        let pre := pre ++ [Ev.download a0 TMP_DIR "audio_",
          Ev.emit "Merging audio and video..." (some 85)]
        match merge_audio_video env.mergeOk (videoPath :: audioPath :: env.fs0)
            videoPath audioPath outputFile with
        | (true, _, mev) =>
          (Res.success (basename outputFile) "video",
            pre ++ mev ++ [Ev.saveThumb yt.thumbnailUrl (basename outputFile),
              Ev.emit "Download complete!" (some 100)])
        | (false, _, mev) =>
          (Res.failure "Merge failed",
            pre ++ mev ++ [Ev.emit "Merge failed, but files saved" (some 100)])
  | _, _ =>
    let pre := [Ev.emit "Using progressive stream fallback..." (some 30)]
    match progFallbackStream yt.streams target with
    | none =>
      (Res.failure "NoneType object has no attribute download",
        pre ++ [Ev.emit "Error: NoneType object has no attribute download" (some 0)])
    | some st =>
      let pre := pre ++ [Ev.select st]
      match env.download st DOWNLOADS_DIR "" with
      | Except.error e =>
        (Res.failure e,
          pre ++ [Ev.download st DOWNLOADS_DIR "", Ev.emit ("Error: " ++ e) (some 0)])
      | Except.ok filePath =>
        (Res.success (basename filePath) "video",
          pre ++ [Ev.download st DOWNLOADS_DIR "",
            Ev.saveThumb yt.thumbnailUrl (basename filePath),
            Ev.emit "Download complete!" (some 100)])

/-- `download_video_web(url, target_quality, audio_only)` (app.py:90-232).
The outer `try` catches everything, producing a failure dictionary and a
0% error event. -/
def download_video_web (env : Env) (url : String) (target : Nat)
    (audioOnly : Bool) : Res × List Ev :=
  match env.resolve url with
  | Except.error e =>
    (Res.failure e,
      [Ev.emit "Fetching video information..." (some 0),
       Ev.emit ("Error: " ++ e) (some 0)])
  | Except.ok yt =>
    let pre := [Ev.emit "Fetching video information..." (some 0),
      Ev.emit ("Processing: " ++ yt.title) (some 10),
      Ev.emit ("Processing: " ++ yt.title) (some 10)]
    if audioOnly then
      ((webAudioBranch env yt).1, pre ++ (webAudioBranch env yt).2)
    else
      ((webVideoBranch env yt target).1, pre ++ (webVideoBranch env yt target).2)

/-! ## Terminal front end: `download_video` (yd.py:69-144)

The function prints its progress and returns `None`; its observable
behaviour is the event trace.  The outer `try` prints the error. -/

/-- The audio-only branch of `download_video` (yd.py:76-88): download the
highest-bitrate audio stream, run ffmpeg ignoring its exit status, then
unconditionally delete the input and print success.  A `None` stream makes
`stream.download` raise, which the outer handler prints. -/
def ydAudioBranch (env : Env) (yt : VideoInfo) : List Ev :=
  let pre := [Ev.emit "🎵 Downloading audio only ..." none]
  match (orderByAbrDesc (yt.streams.filter (fun s => s.kind == SKind.audioOnly))).head? with
  | none =>
    pre ++ [Ev.emit "❌ Error downloading video: NoneType object has no attribute download" none]
  | some st =>
    let pre := pre ++ [Ev.select st]
    match env.download st DOWNLOADS_DIR "" with
    | Except.error e =>
      pre ++ [Ev.download st DOWNLOADS_DIR "",
        Ev.emit ("❌ Error downloading video: " ++ e) none]
    | Except.ok mp4Path =>
      let mp3Path : String := ⟨pyReplace ".mp4".data ".mp3".data mp4Path.data⟩
      let pre := pre ++ [Ev.download st DOWNLOADS_DIR "", Ev.ffmpegConv mp4Path mp3Path]
      match env.convYd with
      | Except.error m =>
        pre ++ [Ev.emit ("❌ Error downloading video: " ++ m) none]
      | Except.ok _ =>
        pre ++ [Ev.remove mp4Path,
          Ev.emit ("✅ Audio saved as: " ++ mp3Path) none]

/-- The video branch of `download_video` (yd.py:90-141): identical stream
selection, downloads and merge as the web front end; differs in its prints,
the estimated-size print, and the absence of a thumbnail save. -/
def ydVideoBranch (env : Env) (yt : VideoInfo) (target : Nat) : List Ev :=
  let videoStreams := orderByResDesc (yt.streams.filter
    (fun s => s.kind == SKind.videoOnly && s.fileExtension == "mp4"))
  let audioStreams := orderByAbrDesc (yt.streams.filter
    (fun s => s.kind == SKind.audioOnly))
  let pre := [Ev.emitAvail (availableRes yt.streams)]
  match selectVideoStream videoStreams target, audioStreams with
  | some sv, a0 :: _ =>
    let pre := pre ++ [Ev.select sv, Ev.select a0,
      Ev.emit ("🎥 Downloading video (" ++ toString sv.resolution ++ "p) ...") none,
      Ev.emit ("🎧 Downloading audio (" ++ toString a0.abr ++ "kbps) ...") none]
    match env.download sv TMP_DIR "video_" with
    | Except.error e =>
      pre ++ [Ev.download sv TMP_DIR "video_",
        Ev.emit ("❌ Error downloading video: " ++ e) none]
    | Except.ok videoPath =>
      let pre := pre ++ [Ev.download sv TMP_DIR "video_"]
      match env.download a0 TMP_DIR "audio_" with
      | Except.error e =>
        pre ++ [Ev.download a0 TMP_DIR "audio_",
          Ev.emit ("❌ Error downloading video: " ++ e) none]
      | Except.ok audioPath =>
        let outputFile := get_unique_path env.fs0
          (DOWNLOADS_DIR ++ "/" ++ sanitize_filename yt.title
            ++ " (" ++ toString sv.resolution ++ "p).mp4")
        let pre := pre ++ [Ev.download a0 TMP_DIR "audio_",
          Ev.emitEst (sv.filesize + a0.filesize),
          Ev.emit "🔄 Merging audio and video ..." none]
        match merge_audio_video env.mergeOk (videoPath :: audioPath :: env.fs0)
            videoPath audioPath outputFile with
        | (true, _, mev) =>
          pre ++ mev ++ [Ev.emit ("✅ Download complete: " ++ outputFile) none]
        | (false, _, mev) =>
          pre ++ mev ++ [Ev.emit "⚠️ Merge failed. Files saved separately." none]
  | _, _ =>
    let pre := pre ++
      [Ev.emit "⚠️ No suitable adaptive stream found, trying progressive fallback..." none]
    match progFallbackStream yt.streams target with
    | none =>
      pre ++ [Ev.emit "❌ Error downloading video: NoneType object has no attribute download" none]
    | some st =>
      let pre := pre ++ [Ev.select st]
      match env.download st DOWNLOADS_DIR "" with
      | Except.error e =>
        pre ++ [Ev.download st DOWNLOADS_DIR "",
          Ev.emit ("❌ Error downloading video: " ++ e) none]
      | Except.ok filePath =>
        pre ++ [Ev.download st DOWNLOADS_DIR "",
          Ev.emit ("✅ Download complete: " ++ filePath) none]

/-- `download_video(url, target_quality, audio_only)` (yd.py:69-144). -/
def download_video (env : Env) (url : String) (target : Nat)
    (audioOnly : Bool) : List Ev :=
  match env.resolve url with
  | Except.error e => [Ev.emit ("❌ Error downloading video: " ++ e) none]
  | Except.ok yt =>
    let pre := [Ev.emit ("🎬 " ++ yt.title) none,
      Ev.emit ("📺 " ++ yt.author) none,
      Ev.emit ("⏱ Duration: " ++ toString (yt.lengthSec / 60) ++ "m "
        ++ toString (yt.lengthSec % 60) ++ "s") none]
    if audioOnly then pre ++ ydAudioBranch env yt
    else pre ++ ydVideoBranch env yt target

/-! ## Playlist orchestration: `download_playlist_web` (app.py:235-255) -/

/-- `download_playlist_web(url, target_quality, audio_only)`: resolve the
playlist, then run `download_video_web` once per member in catalog order,
appending every per-item result; a member's failure result is appended like
any other and the loop continues. -/
def download_playlist_web (env : Env) (url : String) (target : Nat)
    (audioOnly : Bool) : PRes × List Ev :=
  match env.playlistResolve url with
  | Except.error e =>
    (PRes.perr e,
      [Ev.emit "Fetching playlist information..." (some 0),
       Ev.emit ("Error: " ++ e) (some 0)])
  | Except.ok (ptitle, vids) =>
    let total := vids.length
    let hdr := [Ev.emit "Fetching playlist information..." (some 0),
      Ev.emit ("Playlist: " ++ ptitle ++ " (" ++ toString total ++ " videos)") (some 5)]
    let itemTraces := (vids.enum.map (fun p =>
      Ev.emit ("[" ++ toString (p.1 + 1) ++ "/" ++ toString total ++ "] " ++ p.2.title)
          (some ((p.1 + 1) * 90 / total))
        :: (download_video_web env p.2.watchUrl target audioOnly).2)).flatten
    (PRes.pok (vids.map (fun v => (download_video_web env v.watchUrl target audioOnly).1)),
      hdr ++ itemTraces ++ [Ev.emit "Playlist download complete!" (some 100)])

/-! ## Trace projections -/

/-- Everything that is not presentation: selections, downloads, tool
invocations, deletions and the thumbnail save. -/
def isFileOp : Ev → Bool
  | Ev.emit _ _ => false
  | Ev.emitAvail _ => false
  | Ev.emitEst _ => false
  | Ev.select _ => true
  | Ev.download _ _ _ => true
  | Ev.ffmpegMerge _ _ _ => true
  | Ev.ffmpegConv _ _ => true
  | Ev.remove _ => true
  | Ev.saveThumb _ _ => true

/-- Non-presentation events that are also not the thumbnail save. -/
def isCoreOp : Ev → Bool
  | Ev.emit _ _ => false
  | Ev.emitAvail _ => false
  | Ev.emitEst _ => false
  | Ev.select _ => true
  | Ev.download _ _ _ => true
  | Ev.ffmpegMerge _ _ _ => true
  | Ev.ffmpegConv _ _ => true
  | Ev.remove _ => true
  | Ev.saveThumb _ _ => false

/-- The file operations of a trace (presentation events erased). -/
def fileOps (tr : List Ev) : List Ev := tr.filter isFileOp

/-- The core operations of a trace (presentation and the best-effort
thumbnail save erased). -/
def coreOps (tr : List Ev) : List Ev := tr.filter isCoreOp

/-! ## Audio-only invariant predicate -/

/-- Holds of an event that is compatible with an audio-only run over the
catalog `streams`: any selected representation is audio-only with the
greatest bitrate among the audio-only representations, any downloaded
representation is audio-only, and anything else is unconstrained. -/
def audOnlyOk (streams : List Rep) : Ev → Prop
  | Ev.select r =>
    r.kind = SKind.audioOnly
      ∧ ∀ x ∈ streams, x.kind = SKind.audioOnly → x.abr ≤ r.abr
  | Ev.download r _ _ => r.kind = SKind.audioOnly
  | _ => True

/-- Totality of the bitrate order used by `orderByAbrDesc`. -/
instance : IsTotal Rep (fun a b : Rep => a.abr ≤ b.abr) :=
  ⟨fun a b => Nat.le_total a.abr b.abr⟩

/-- Transitivity of the bitrate order used by `orderByAbrDesc`. -/
instance : IsTrans Rep (fun a b : Rep => a.abr ≤ b.abr) :=
  ⟨fun _ _ _ hab hbc => Nat.le_trans hab hbc⟩

/-- Totality of the resolution order used by `orderByResDesc`. -/
instance : IsTotal Rep (fun a b : Rep => a.resolution ≤ b.resolution) :=
  ⟨fun a b => Nat.le_total a.resolution b.resolution⟩

/-- Transitivity of the resolution order used by `orderByResDesc`. -/
instance : IsTrans Rep (fun a b : Rep => a.resolution ≤ b.resolution) :=
  ⟨fun _ _ _ hab hbc => Nat.le_trans hab hbc⟩

/-! ## Concrete worlds used by witnesses and counterexamples -/

/-- A 128 kbps audio-only representation. -/
def audioRep128 : Rep := ⟨SKind.audioOnly, "mp4", 0, 128, 1000⟩

/-- A 720p adaptive mp4 video representation. -/
def videoRep720 : Rep := ⟨SKind.videoOnly, "mp4", 720, 0, 4000⟩

/-- A catalog with one adaptive video and one audio representation. -/
def infoFull : VideoInfo := ⟨"Clip", "Author", 125, "thumb1", [videoRep720, audioRep128]⟩

/-- A catalog with no streams at all. -/
def infoNoStreams : VideoInfo := ⟨"Song Two", "Author", 60, "thumb2", []⟩

/-- A catalog with a single audio representation. -/
def infoAudio1 : VideoInfo := ⟨"Song One", "Author", 60, "thumb3", [audioRep128]⟩

/-- Another audio-only catalog. -/
def infoAudio3 : VideoInfo := ⟨"Song Three", "Author", 60, "thumb4", [audioRep128]⟩

/-- A world in which downloads and the merge succeed but the audio
conversion of the web front end fails with exit status 1, while the
conversion invoked by the terminal front end exits 0 yet produces a missing
(zero-size) output file. -/
def envCex : Env :=
  { resolve := fun _ => Except.ok infoFull
    download := fun _ dir pfx => Except.ok (dir ++ "/" ++ pfx ++ "f.mp4")
    mergeOk := true
    convWeb := ConvOutcome.ret 1 "boom"
    convYd := Except.ok 0
    mp3Exists := fun _ => false
    mp3Size := fun _ => 0
    fs0 := []
    playlistResolve := fun _ => Except.error "not a playlist" }

/-- A world resolving a three-item playlist whose second item has no
streams (so its audio-only pipeline fails with no audio stream available)
while items one and three convert successfully. -/
def envPl : Env :=
  { resolve := fun u =>
      if u = "u1" then Except.ok infoAudio1
      else if u = "u2" then Except.ok infoNoStreams
      else Except.ok infoAudio3
    download := fun _ dir pfx => Except.ok (dir ++ "/" ++ pfx ++ "song.mp4")
    mergeOk := true
    convWeb := ConvOutcome.ret 0 ""
    convYd := Except.ok 0
    mp3Exists := fun _ => true
    mp3Size := fun _ => 1
    fs0 := []
    playlistResolve := fun _ => Except.ok ("My Playlist",
      [⟨"Song One", "u1"⟩, ⟨"Song Two", "u2"⟩, ⟨"Song Three", "u3"⟩]) }

end YTDL

open YTDL

/-! ## Helper lemmas about `dropWhile` and stripping -/

/-- `dropWhile` is idempotent. -/
theorem dropWhile_self_idem {α : Type} (p : α → Bool) (l : List α) :
    (l.dropWhile p).dropWhile p = l.dropWhile p := by
  induction l with
  | nil => rfl
  | cons a t ih =>
    cases h : p a <;> simp [List.dropWhile_cons, h, ih]

/-- If `dropWhile` leaves a `cons` unchanged, its head fails the predicate. -/
theorem head_fails_of_dropWhile_eq {α : Type} {p : α → Bool} {a : α} {t : List α}
    (h : (a :: t).dropWhile p = a :: t) : p a = false := by
  cases hpa : p a
  · rfl
  · exfalso
    rw [List.dropWhile_cons_of_pos hpa] at h
    have hlen := congrArg List.length h
    have hle := (List.dropWhile_sublist (l := t) p).length_le
    simp only [List.length_cons] at hlen
    omega

/-- Stripping trailing whitespace preserves a whitespace-free head: a list
that is its own `lstripL` still is after `rstripL`. -/
theorem lstrip_rstrip_of_lstripped {u : List Char} (h : lstripL u = u) :
    lstripL (rstripL u) = rstripL u := by
  unfold rstripL lstripL
  obtain ⟨zs, hzs⟩ := List.dropWhile_suffix (l := u.reverse) Char.isWhitespace
  cases hw : u.reverse.dropWhile Char.isWhitespace with
  | nil => simp
  | cons b tb =>
    have hne : (b :: tb) ≠ ([] : List Char) := by simp
    have hlast : (b :: tb).getLast? = u.head? := by
      have h1 : (zs ++ (b :: tb)).getLast? = u.reverse.getLast? := by
        rw [hw] at hzs; rw [hzs]
      rw [List.getLast?_append] at h1
      have h2 : u.reverse.getLast? = u.head? := by
        have h3 := List.head?_reverse u.reverse
        rw [List.reverse_reverse] at h3
        exact h3.symm
      cases htb : (b :: tb).getLast? with
      | none => exact absurd (List.getLast?_eq_none_iff.mp htb) hne
      | some x =>
        rw [htb] at h1
        rw [show (some x).or zs.getLast? = some x from rfl] at h1
        rw [← h2]
        exact h1
    cases u with
    | nil => simp at hw
    | cons a t =>
      have ha : Char.isWhitespace a = false := head_fails_of_dropWhile_eq h
      have hhead : (b :: tb).getLast? = some a := by simpa using hlast
      rw [← hw]
      rw [hw]
      cases hrev : (b :: tb).reverse with
      | nil => simp at hrev
      | cons c tc =>
        have : (b :: tb).reverse.head? = some c := by rw [hrev]; rfl
        rw [List.head?_reverse] at this
        rw [hhead] at this
        have hca : c = a := by simpa using this.symm
        rw [List.dropWhile_cons_of_neg]
        rw [hca]
        simp [ha]

/-- `rstripL` is idempotent. -/
theorem rstrip_idem (u : List Char) : rstripL (rstripL u) = rstripL u := by
  unfold rstripL
  rw [List.reverse_reverse, dropWhile_self_idem]

/-- `stripL` is idempotent. -/
theorem strip_idem (l : List Char) : stripL (stripL l) = stripL l := by
  unfold stripL
  have h1 : lstripL (lstripL l) = lstripL l := dropWhile_self_idem _ _
  rw [lstrip_rstrip_of_lstripped h1, rstrip_idem]

/-- Membership survives `rstripL` backwards. -/
theorem mem_of_mem_rstrip {x : Char} {l : List Char} (h : x ∈ rstripL l) : x ∈ l := by
  unfold rstripL at h
  rw [List.mem_reverse] at h
  have := (List.dropWhile_sublist (l := l.reverse) Char.isWhitespace).subset h
  rwa [List.mem_reverse] at this

/-- Membership survives `lstripL` backwards. -/
theorem mem_of_mem_lstrip {x : Char} {l : List Char} (h : x ∈ lstripL l) : x ∈ l :=
  (List.dropWhile_sublist (l := l) Char.isWhitespace).subset h

/-- A list without illegal characters is a fixed point of `removeIllegalL`. -/
theorem removeIllegal_of_clean {l : List Char}
    (h : ∀ c ∈ l, !(illegalChars.contains c)) : removeIllegalL l = l :=
  List.filter_eq_self.mpr h

/-- C10, list level: the sanitizer is idempotent. -/
theorem sanitize_filenameL_idem (l : List Char) :
    sanitize_filenameL (sanitize_filenameL l) = sanitize_filenameL l := by
  unfold sanitize_filenameL
  have hclean : ∀ c ∈ stripL (removeIllegalL l), !(illegalChars.contains c) := by
    intro c hc
    have hm : c ∈ removeIllegalL l := mem_of_mem_lstrip (mem_of_mem_rstrip hc)
    exact (List.mem_filter.mp hm).2
  rw [removeIllegal_of_clean hclean, strip_idem]

/-- C10: `sanitize` is idempotent — for every string `s`,
`sanitize_filename (sanitize_filename s) = sanitize_filename s`: a name
already stripped of the characters `\ / * ? : " < > |` and of surrounding
whitespace is a fixed point of the Filename Policy's sanitizer
(app.py:28-30, yd.py:17-19). -/
theorem sanitize_filename_idem (s : String) :
    sanitize_filename (sanitize_filename s) = sanitize_filename s := by
  unfold sanitize_filename
  exact congrArg String.mk (sanitize_filenameL_idem s.data)

/-! ## Claim C7: the URL normalizer -/

/-- `pySplit` never returns the empty list (Python `split` always yields at
least one piece). -/
theorem pySplit_ne_nil (l : List Char) (sep : Char) : pySplit l sep ≠ [] := by
  induction l with
  | nil => simp [pySplit]
  | cons c t ih =>
    by_cases h : c = sep
    · simp [pySplit, h]
    · cases hp : pySplit t sep with
      | nil => exact absurd hp ih
      | cons hh r => simp [pySplit, h, hp]

/-- The first piece of a Python split is the prefix before the first
separator. -/
theorem pySplit_head (l : List Char) (sep : Char) :
    (pySplit l sep).head? = some (l.takeWhile (fun c => c ≠ sep)) := by
  induction l with
  | nil => simp [pySplit]
  | cons c t ih =>
    by_cases h : c = sep
    · simp [pySplit, h, List.takeWhile_cons]
    · cases hp : pySplit t sep with
      | nil => exact absurd hp (pySplit_ne_nil t sep)
      | cons hh r =>
        have hht : hh = t.takeWhile (fun c => ¬ (c = sep)) := by
          rw [hp] at ih
          simpa using ih
        simp [pySplit, h, hp, List.takeWhile_cons, hht]

/-- C7, counterexample: on an input whose first `&` lies *before* the watch
marker, the code truncates at that earlier `&` (destroying the marker), while
the claim's rule — truncate at the first `&` *after* the marker — keeps the
marker and its identifier.  So the claim as stated is false of the code. -/
theorem clean_youtube_url_counterexample :
    clean_youtube_url "http://a&b/watch?v=X&list=Y".data = "http://a".data ∧
    claimedNormalize "http://a&b/watch?v=X&list=Y".data
      = "http://a&b/watch?v=X".data ∧
    clean_youtube_url "http://a&b/watch?v=X&list=Y".data
      ≠ claimedNormalize "http://a&b/watch?v=X&list=Y".data := by
  refine ⟨by decide, by decide, by decide⟩

/-- C7 (amended): the Normalizer applies its rules in order — a string
matching the short-link pattern (as a prefix, with an 11-character
identifier) is rewritten to the canonical long form from that identifier;
otherwise a string containing the watch marker is truncated at the first `&`
anywhere in the string (which is what `url.split("&")[0]` computes);
any other string passes through unchanged. -/
theorem clean_youtube_url_amended (l : List Char) :
    clean_youtube_url l = amendedNormalize l := by
  unfold clean_youtube_url amendedNormalize
  cases shortLinkId l with
  | some vid => rfl
  | none =>
    by_cases h : hasSubstr l watchMarker
    · simp only [h, if_true]
      rw [List.headD_eq_head?_getD, pySplit_head]
      rfl
    · simp [h]

/-! ## Claim C9: `get_unique_path` -/

/-- The loop of `get_unique_path` reaches the first free candidate:
if every candidate from index `k` up to (excluding) `n` exists and candidate
`n` does not, then starting the loop at candidate `k` (with counter `k + 1`)
returns candidate `n`, provided the fuel covers the distance. -/
theorem uniqueAux_first_free (fs : List String) (base ext p : String) :
    ∀ (fuel k n : Nat), k ≤ n → n - k < fuel →
    (∀ m, k ≤ m → m < n → uniqueCand base ext p m ∈ fs) →
    uniqueCand base ext p n ∉ fs →
    uniqueAux fs base ext (uniqueCand base ext p k) (k + 1) fuel
      = uniqueCand base ext p n := by
  intro fuel
  induction fuel with
  | zero => intro k n _ h2 _ _; omega
  | succ f ih =>
    intro k n h1 h2 h3 h4
    by_cases hkn : k = n
    · subst hkn
      simp [uniqueAux, h4]
    · have hklt : k < n := lt_of_le_of_ne h1 hkn
      have hkmem : uniqueCand base ext p k ∈ fs := h3 k le_rfl hklt
      have hstep : uniqueAux fs base ext (uniqueCand base ext p k) (k + 1) (f + 1)
          = uniqueAux fs base ext (uniqueCand base ext p (k + 1)) (k + 2) f := by
        simp only [uniqueAux, hkmem, if_true]
        rfl
      rw [hstep]
      exact ih (k + 1) n hklt (by omega) (fun m hm1 hm2 => h3 m (by omega) hm2) h4

/-- C9: for every path `p` and existing-path set `fs` (the existence
predicate): if `p` does not exist, `get_unique_path` returns `p` unchanged;
if the candidates `p = cand 0, base_1 = cand 1, …, cand (n-1)` all exist and
`cand n` does not (the first free candidate, counters tried in increasing
order from 1, suffix inserted before the extension), it returns `cand n`.
The bound `n ≤ fs.length + 1` reflects the fuel of the loop embedding: a
prefix of `n` distinct existing candidates always satisfies it. -/
theorem get_unique_path_spec (fs : List String) (p : String) :
    (p ∉ fs → get_unique_path fs p = p) ∧
    (∀ n, n ≤ fs.length + 1 →
      (∀ m, m < n → uniqueCand (splitext p).1 (splitext p).2 p m ∈ fs) →
      uniqueCand (splitext p).1 (splitext p).2 p n ∉ fs →
      get_unique_path fs p = uniqueCand (splitext p).1 (splitext p).2 p n) := by
  constructor
  · intro hp
    unfold get_unique_path
    simp [uniqueAux, hp]
  · intro n hn h3 h4
    unfold get_unique_path
    have h0 : uniqueCand (splitext p).1 (splitext p).2 p 0 = p := rfl
    have := uniqueAux_first_free fs (splitext p).1 (splitext p).2 p
      (fs.length + 2) 0 n (Nat.zero_le n) (by omega)
      (fun m _ hm2 => h3 m hm2) h4
    rw [h0] at this
    exact this

/-- C9, witness: on the file system `["a.mp4", "a_1.mp4"]` the path
`"a.mp4"` is uniquified to `"a_2.mp4"` (first free candidate), and a path
that does not exist is returned unchanged. -/
theorem get_unique_path_spec_witness :
    get_unique_path ["a.mp4", "a_1.mp4"] "b.mp4" = "b.mp4" ∧
    get_unique_path ["a.mp4", "a_1.mp4"] "a.mp4" = "a_2.mp4" := by
  constructor
  · exact (get_unique_path_spec ["a.mp4", "a_1.mp4"] "b.mp4").1 (by decide)
  · have h := (get_unique_path_spec ["a.mp4", "a_1.mp4"] "a.mp4").2 2
      (by decide)
      (by intro m hm
          interval_cases m
          · show "a.mp4" ∈ _
            decide
          · show uniqueCand "a" ".mp4" "a.mp4" 1 ∈ _
            decide)
      (by show uniqueCand "a" ".mp4" "a.mp4" 2 ∉ _
          decide)
    exact h

/-! ## Claim C5: the progress callback divides by an unknown total -/

/-- C5 (code bug): when `stream.filesize` is 0 (total bytes unknown), the
web front end's per-chunk progress callback (app.py:95-99) does not skip the
percentage report — its division `downloaded / total` raises
`ZeroDivisionError` for every chunk, which propagates out of the callback
instead of being skipped. -/
theorem progress_callback_zero_total :
    progress_callback 0 0 = Except.error "ZeroDivisionError: division by zero" ∧
    ∀ bytesRemaining, progress_callback 0 bytesRemaining
      = Except.error "ZeroDivisionError: division by zero" :=
  ⟨rfl, fun _ => rfl⟩

/-! ## Claim C2: the merge stage -/

/-- C2: for source files `v ≠ a` present on a duplicate-free file system `fs`
and a fresh output path `o`, `merge_audio_video` returns success exactly when
the encoding tool exits 0; on success both source files are deleted, and on
tool failure the file system is left unchanged (both sources intact). -/
theorem merge_audio_video_spec (mok : Bool) (fs : List String) (v a o : String)
    (hnd : fs.Nodup) (ho : o ∉ fs) (hv : v ∈ fs) (ha : a ∈ fs) (hva : v ≠ a) :
    ((merge_audio_video mok fs v a o).1 = true ↔ mok = true) ∧
    (mok = true → v ∉ (merge_audio_video mok fs v a o).2.1
      ∧ a ∉ (merge_audio_video mok fs v a o).2.1) ∧
    (mok = false → (merge_audio_video mok fs v a o).2.1 = fs) := by
  cases mok with
  | false => simp [merge_audio_video]
  | true =>
    have hvo : v ≠ o := fun h => ho (h ▸ hv)
    have hao : a ≠ o := fun h => ho (h ▸ ha)
    have hv1 : v ∈ o :: fs := List.mem_cons_of_mem _ hv
    have hnd1 : (o :: fs).Nodup := List.nodup_cons.mpr ⟨ho, hnd⟩
    have ha1 : a ∈ (o :: fs).erase v :=
      (List.mem_erase_of_ne (fun h => hva h.symm)).mpr (List.mem_cons_of_mem _ ha)
    have hres : merge_audio_video true fs v a o
        = (true, ((o :: fs).erase v).erase a,
          [Ev.ffmpegMerge v a o, Ev.remove v, Ev.remove a]) := by
      simp [merge_audio_video, hv1, ha1]
    refine ⟨by rw [hres], fun _ => ?_, by intro h; cases h⟩
    rw [hres]
    constructor
    · intro hmem
      exact hnd1.not_mem_erase (List.mem_of_mem_erase hmem)
    · exact (hnd1.erase v).not_mem_erase

/-- C2, witness: a concrete successful merge deletes both temporary source
files. -/
theorem merge_audio_video_spec_witness :
    ((merge_audio_video true ["tmp/v.mp4", "tmp/a.mp4"]
        "tmp/v.mp4" "tmp/a.mp4" "downloads/out.mp4").1 = true ↔ true = true) ∧
    (true = true →
      "tmp/v.mp4" ∉ (merge_audio_video true ["tmp/v.mp4", "tmp/a.mp4"]
        "tmp/v.mp4" "tmp/a.mp4" "downloads/out.mp4").2.1
      ∧ "tmp/a.mp4" ∉ (merge_audio_video true ["tmp/v.mp4", "tmp/a.mp4"]
        "tmp/v.mp4" "tmp/a.mp4" "downloads/out.mp4").2.1) ∧
    (true = false → (merge_audio_video true ["tmp/v.mp4", "tmp/a.mp4"]
        "tmp/v.mp4" "tmp/a.mp4" "downloads/out.mp4").2.1
      = ["tmp/v.mp4", "tmp/a.mp4"]) :=
  merge_audio_video_spec true ["tmp/v.mp4", "tmp/a.mp4"]
    "tmp/v.mp4" "tmp/a.mp4" "downloads/out.mp4"
    (by decide) (by decide) (by decide) (by decide) (by decide)

/-! ## Claim C1: the representation selector -/

/-- Among a descending-sorted list, the first stream satisfying the ceiling
is the largest satisfying it. -/
theorem find?_max_of_sorted_desc (q : Nat) :
    ∀ (l : List YTDL.Rep),
    List.Sorted (fun x y : YTDL.Rep => y.resolution ≤ x.resolution) l →
    ∀ s, l.find? (fun s => s.resolution ≤ q) = some s →
    ∀ x ∈ l, x.resolution ≤ q → x.resolution ≤ s.resolution := by
  intro l
  induction l with
  | nil => intro _ s h; simp at h
  | cons a t ih =>
    intro hs s hf x hx hxq
    rw [List.sorted_cons] at hs
    by_cases hpa : a.resolution ≤ q
    · rw [List.find?_cons_of_pos (p := fun s : YTDL.Rep => decide (s.resolution ≤ q)) _
        (decide_eq_true hpa)] at hf
      cases hf
      rcases List.mem_cons.mp hx with rfl | hxt
      · exact le_refl _
      · exact hs.1 x hxt
    · rw [List.find?_cons_of_neg (p := fun s : YTDL.Rep => decide (s.resolution ≤ q)) _
        (by simpa using hpa)] at hf
      rcases List.mem_cons.mp hx with rfl | hxt
      · exact absurd hxq hpa
      · exact ih hs.2 s hf x hxt hxq

/-- C1: for every quality ceiling `q` and non-empty descending-sorted list of
video representations, the selector (app.py:188-195, yd.py:103-110) returns
a representation of the list; it has the largest resolution `≤ q` whenever
some representation satisfies the ceiling, and otherwise it has the globally
largest resolution (the selector never fails on a non-empty list). -/
theorem selectVideoStream_spec (l : List YTDL.Rep) (q : Nat)
    (hs : List.Sorted (fun x y : YTDL.Rep => y.resolution ≤ x.resolution) l)
    (hne : l ≠ []) :
    ∃ r, selectVideoStream l q = some r ∧ r ∈ l ∧
      ((∃ x ∈ l, x.resolution ≤ q) →
        r.resolution ≤ q ∧ ∀ x ∈ l, x.resolution ≤ q → x.resolution ≤ r.resolution) ∧
      ((∀ x ∈ l, q < x.resolution) → ∀ x ∈ l, x.resolution ≤ r.resolution) := by
  cases hf : l.find? (fun s => s.resolution ≤ q) with
  | some s =>
    have hsq : s.resolution ≤ q := by simpa using List.find?_some hf
    have hsm : s ∈ l := List.mem_of_find?_eq_some hf
    refine ⟨s, by simp [selectVideoStream, hf], hsm, ?_, ?_⟩
    · intro _
      exact ⟨hsq, find?_max_of_sorted_desc q l hs s hf⟩
    · intro hall
      exact absurd hsq (not_le.mpr (hall s hsm))
  | none =>
    cases l with
    | nil => exact absurd rfl hne
    | cons a t =>
      have hhead : selectVideoStream (a :: t) q = some a := by
        simp [selectVideoStream, hf]
      rw [List.sorted_cons] at hs
      refine ⟨a, hhead, List.mem_cons_self a t, ?_, ?_⟩
      · rintro ⟨x, hx, hxq⟩
        have := List.find?_eq_none.mp hf x hx
        simp at this
        exact absurd hxq (not_le.mpr this)
      · intro _ x hx
        rcases List.mem_cons.mp hx with rfl | hxt
        · exact le_refl _
        · exact hs.1 x hxt

/-- C1, witness: with ceiling 720 over the descending catalog
`[1080p, 720p, 360p]` the selector picks the 720p stream; the same theorem
applied to the all-above-ceiling catalog `[1080p]` with ceiling 720 yields
the globally largest. -/
theorem selectVideoStream_spec_witness :
    (∃ r, selectVideoStream
        [⟨SKind.videoOnly, "mp4", 1080, 0, 50⟩,
         ⟨SKind.videoOnly, "mp4", 720, 0, 30⟩,
         ⟨SKind.videoOnly, "mp4", 360, 0, 10⟩] 720 = some r ∧ r.resolution = 720) ∧
    (∃ r, selectVideoStream [⟨SKind.videoOnly, "mp4", 1080, 0, 50⟩] 720 = some r
      ∧ r.resolution = 1080) := by
  constructor
  · obtain ⟨r, hr, _, hmax, _⟩ := selectVideoStream_spec
      [⟨SKind.videoOnly, "mp4", 1080, 0, 50⟩,
       ⟨SKind.videoOnly, "mp4", 720, 0, 30⟩,
       ⟨SKind.videoOnly, "mp4", 360, 0, 10⟩] 720 (by decide) (by decide)
    refine ⟨r, hr, ?_⟩
    have hr720 : r = ⟨SKind.videoOnly, "mp4", 720, 0, 30⟩ := by
      have := hr
      rw [show selectVideoStream
        [⟨SKind.videoOnly, "mp4", 1080, 0, 50⟩,
         ⟨SKind.videoOnly, "mp4", 720, 0, 30⟩,
         ⟨SKind.videoOnly, "mp4", 360, 0, 10⟩] 720
        = some ⟨SKind.videoOnly, "mp4", 720, 0, 30⟩ from by decide] at this
      exact (Option.some_inj.mp this).symm
    rw [hr720]
  · obtain ⟨r, hr, _, _, hglob⟩ := selectVideoStream_spec
      [⟨SKind.videoOnly, "mp4", 1080, 0, 50⟩] 720 (by decide) (by decide)
    refine ⟨r, hr, ?_⟩
    have hr1080 : r = ⟨SKind.videoOnly, "mp4", 1080, 0, 50⟩ := by
      have := hr
      rw [show selectVideoStream [⟨SKind.videoOnly, "mp4", 1080, 0, 50⟩] 720
        = some ⟨SKind.videoOnly, "mp4", 1080, 0, 50⟩ from by decide] at this
      exact (Option.some_inj.mp this).symm
    rw [hr1080]

/-! ## Claim C3: playlist collection -/

/-- C3: for every resolved playlist of `N` items, `download_playlist_web`
(app.py:235-255) produces exactly `N` per-item results in catalog order:
result `i` is precisely the result of running the single-item pipeline
`download_video_web` on item `i`, and since the single-item pipeline is a
total function (its outer `try` converts every error into a failure result),
a failing item contributes its failure result while all later items are
still processed. -/
theorem download_playlist_web_results (env : YTDL.Env) (url : String)
    (target : Nat) (ao : Bool) (ptitle : String) (vids : List YTDL.PlaylistItem)
    (h : env.playlistResolve url = Except.ok (ptitle, vids)) :
    ∃ rs, (download_playlist_web env url target ao).1 = PRes.pok rs ∧
      rs.length = vids.length ∧
      ∀ i (hi : i < vids.length) (hi2 : i < rs.length),
        rs.get ⟨i, hi2⟩
          = (download_video_web env (vids.get ⟨i, hi⟩).watchUrl target ao).1 := by
  refine ⟨vids.map (fun v => (download_video_web env v.watchUrl target ao).1),
    ?_, by simp, ?_⟩
  · simp [download_playlist_web, h]
  · intro i hi hi2
    simp [List.get_eq_getElem, List.getElem_map]

/-- C3, witness: a 3-item playlist whose second item has no streams yields
exactly 3 ordered results — success, failure (no audio stream), success. -/
theorem download_playlist_web_results_witness :
    (∃ rs, (download_playlist_web envPl "pl" 720 true).1 = PRes.pok rs ∧
      rs.length = 3 ∧
      ∀ i (hi : i < (3 : Nat)) (hi2 : i < rs.length),
        rs.get ⟨i, hi2⟩
          = (download_video_web envPl
              (([⟨"Song One", "u1"⟩, ⟨"Song Two", "u2"⟩,
                 ⟨"Song Three", "u3"⟩] : List YTDL.PlaylistItem).get ⟨i, hi⟩).watchUrl
              720 true).1) ∧
    (download_playlist_web envPl "pl" 720 true).1
      = PRes.pok [Res.success "song.mp3" "audio",
          Res.failure "No audio stream available",
          Res.success "song.mp3" "audio"] := by
  constructor
  · obtain ⟨rs, h1, h2, h3⟩ := download_playlist_web_results envPl "pl" 720 true
      "My Playlist" [⟨"Song One", "u1"⟩, ⟨"Song Two", "u2"⟩, ⟨"Song Three", "u3"⟩] rfl
    exact ⟨rs, h1, h2, h3⟩
  · decide

/-! ## Claim C4: empty conversion output -/

/-- C4 (code bug in the terminal front end): in an audio-only run of
`download_video` (yd.py:76-88) where the conversion tool exits 0 but the
output file is missing/has zero size, the terminal front end still deletes
the input file and reports success naming the (empty) mp3 as the saved
deliverable — it performs no exit-status or output-size check at all.  (The
web front end, app.py:153-167, performs both checks, which is what the claim
describes.) -/
theorem yd_conversion_deletes_input_on_empty_output :
    envCex.convYd = Except.ok 0 ∧
    envCex.mp3Exists "downloads/f.mp3" = false ∧
    envCex.mp3Size "downloads/f.mp3" = 0 ∧
    Ev.remove "downloads/f.mp4" ∈ ydAudioBranch envCex infoFull ∧
    Ev.emit "✅ Audio saved as: downloads/f.mp3" none ∈ ydAudioBranch envCex infoFull := by
  refine ⟨rfl, rfl, rfl, ?_, ?_⟩ <;> decide

/-! ## Claim C8: the audio-only invariant -/

/-- In a list sorted ascending by bitrate, the last element has the greatest
bitrate. -/
theorem sorted_abr_getLast_max :
    ∀ (s : List YTDL.Rep),
    List.Sorted (fun a b : YTDL.Rep => a.abr ≤ b.abr) s →
    ∀ m, s.getLast? = some m → ∀ x ∈ s, x.abr ≤ m.abr := by
  intro s
  induction s with
  | nil => intro _ m hm; simp at hm
  | cons a t ih =>
    intro hs m hm x hx
    rw [List.sorted_cons] at hs
    cases t with
    | nil =>
      have hma : a = m := by simpa using hm
      rcases List.mem_cons.mp hx with rfl | hxt
      · exact le_of_eq (by rw [hma])
      · simp at hxt
    | cons b t2 =>
      rw [List.getLast?_cons_cons] at hm
      rcases List.mem_cons.mp hx with rfl | hxt
      · have hmm : m ∈ b :: t2 := by
          obtain ⟨hne, heq⟩ := List.mem_getLast?_eq_getLast (Option.mem_def.mpr hm)
          rw [heq]
          exact List.getLast_mem hne
        exact hs.1 m hmm
      · exact ih hs.2 m hm x hxt

/-- The head of `orderByAbrDesc l` is a member of `l` of maximal bitrate. -/
theorem orderByAbrDesc_head_max (l : List YTDL.Rep) (r : YTDL.Rep)
    (h : (orderByAbrDesc l).head? = some r) :
    r ∈ l ∧ ∀ x ∈ l, x.abr ≤ r.abr := by
  unfold orderByAbrDesc at h
  rw [List.head?_reverse] at h
  have hsorted := List.sorted_insertionSort (fun a b : YTDL.Rep => a.abr ≤ b.abr) l
  have hperm := List.perm_insertionSort (fun a b : YTDL.Rep => a.abr ≤ b.abr) l
  have hmax := sorted_abr_getLast_max _ hsorted r h
  have hmem : r ∈ List.insertionSort (fun a b : YTDL.Rep => a.abr ≤ b.abr) l := by
    obtain ⟨hne, heq⟩ := List.mem_getLast?_eq_getLast (Option.mem_def.mpr h)
    rw [heq]
    exact List.getLast_mem hne
  exact ⟨hperm.subset hmem, fun x hx => hmax x (hperm.symm.subset hx)⟩

/-- The audio stream chosen by both audio branches is an audio-only
representation of the catalog with maximal bitrate among audio-only
representations. -/
theorem audioChoice_ok (streams : List YTDL.Rep) (st : YTDL.Rep)
    (h : (orderByAbrDesc (streams.filter
      (fun s => s.kind == SKind.audioOnly))).head? = some st) :
    st.kind = SKind.audioOnly
      ∧ ∀ x ∈ streams, x.kind = SKind.audioOnly → x.abr ≤ st.abr := by
  obtain ⟨hmem, hmax⟩ := orderByAbrDesc_head_max _ _ h
  obtain ⟨hstm, hstk⟩ := List.mem_filter.mp hmem
  refine ⟨by simpa using hstk, fun x hx hxk => ?_⟩
  exact hmax x (List.mem_filter.mpr ⟨hx, by simp [hxk]⟩)

/-- Every event of the web audio-only branch respects the audio-only
invariant. -/
theorem webAudioBranch_audOk (env : YTDL.Env) (yt : YTDL.VideoInfo) :
    ∀ ev ∈ (webAudioBranch env yt).2, audOnlyOk yt.streams ev := by
  unfold webAudioBranch
  cases hh : (orderByAbrDesc (yt.streams.filter
      (fun s => s.kind == SKind.audioOnly))).head? with
  | none => simp [audOnlyOk]
  | some st =>
    obtain ⟨hk, hmax⟩ := audioChoice_ok yt.streams st hh
    cases hdl : env.download st DOWNLOADS_DIR "" with
    | error e =>
      simp [hdl, audOnlyOk, hk]
      exact hmax
    | ok audioFilePath =>
      cases hcv : env.convWeb with
      | timeout =>
        simp [hdl, hcv, audOnlyOk, hk]
        exact hmax
      | raised m =>
        simp [hdl, hcv, audOnlyOk, hk]
        exact hmax
      | ret code stderr =>
        by_cases hcode : code = 0
        · by_cases hsz : env.mp3Exists ((splitext audioFilePath).1 ++ ".mp3") = true
              ∧ 0 < env.mp3Size ((splitext audioFilePath).1 ++ ".mp3")
          · simp [hdl, hcv, hcode, hsz, audOnlyOk, hk]
            exact hmax
          · simp [hdl, hcv, hcode, hsz, audOnlyOk, hk]
            exact hmax
        · simp [hdl, hcv, hcode, audOnlyOk, hk]
          exact hmax

/-- Every event of the terminal audio-only branch respects the audio-only
invariant. -/
theorem ydAudioBranch_audOk (env : YTDL.Env) (yt : YTDL.VideoInfo) :
    ∀ ev ∈ ydAudioBranch env yt, audOnlyOk yt.streams ev := by
  unfold ydAudioBranch
  cases hh : (orderByAbrDesc (yt.streams.filter
      (fun s => s.kind == SKind.audioOnly))).head? with
  | none => simp [audOnlyOk]
  | some st =>
    obtain ⟨hk, hmax⟩ := audioChoice_ok yt.streams st hh
    cases hdl : env.download st DOWNLOADS_DIR "" with
    | error e =>
      simp [hdl, audOnlyOk, hk]
      exact hmax
    | ok mp4Path =>
      cases hcv : env.convYd with
      | error m =>
        simp [hdl, hcv, audOnlyOk, hk]
        exact hmax
      | ok code =>
        simp [hdl, hcv, audOnlyOk, hk]
        exact hmax

/-- C8: for every pipeline run with the audio-only flag set, in both front
ends, no video representation is ever selected or downloaded: every selected
representation is audio-only with the greatest bitrate among the catalog's
audio-only representations, every downloaded representation is audio-only,
and the run never reaches the video-selection step (app.py:129-174,
yd.py:76-88). -/
theorem audio_only_no_video (env : YTDL.Env) (url : String) (target : Nat)
    (yt : YTDL.VideoInfo) (h : env.resolve url = Except.ok yt) :
    (∀ ev ∈ (download_video_web env url target true).2, audOnlyOk yt.streams ev) ∧
    (∀ ev ∈ download_video env url target true, audOnlyOk yt.streams ev) := by
  constructor
  · simp only [download_video_web, h, if_true]
    refine List.forall_mem_append.mpr ⟨?_, webAudioBranch_audOk env yt⟩
    simp [audOnlyOk]
  · simp only [download_video, h, if_true]
    refine List.forall_mem_append.mpr ⟨?_, ydAudioBranch_audOk env yt⟩
    simp [audOnlyOk]

/-- C8, witness: the invariant holds of a concrete audio-only run over a
catalog containing both a video and an audio representation. -/
theorem audio_only_no_video_witness :
    (∀ ev ∈ (download_video_web envCex "u" 720 true).2,
      audOnlyOk infoFull.streams ev) ∧
    (∀ ev ∈ download_video envCex "u" 720 true, audOnlyOk infoFull.streams ev) :=
  audio_only_no_video envCex "u" 720 infoFull rfl

/-! ## Claim C6: the two front ends -/

/-- The video branches of the two front ends perform exactly the same core
operations (selections, downloads, merge invocation, deletions): the stream
selection, acquisition, naming and merge code is duplicated verbatim between
app.py:176-228 and yd.py:90-141. -/
theorem videoBranch_coreOps_eq (env : YTDL.Env) (yt : YTDL.VideoInfo) (target : Nat) :
    coreOps (webVideoBranch env yt target).2 = coreOps (ydVideoBranch env yt target) := by
  unfold webVideoBranch ydVideoBranch
  cases hsv : selectVideoStream (orderByResDesc (yt.streams.filter
      (fun s => s.kind == SKind.videoOnly && s.fileExtension == "mp4"))) target with
  | none =>
    cases hpf : progFallbackStream yt.streams target with
    | none => simp [hsv, hpf, coreOps, isCoreOp]
    | some st =>
      cases hdl : env.download st DOWNLOADS_DIR "" with
      | error e => simp [hsv, hpf, hdl, coreOps, isCoreOp]
      | ok filePath => simp [hsv, hpf, hdl, coreOps, isCoreOp]
  | some sv =>
    cases has : orderByAbrDesc (yt.streams.filter
        (fun s => s.kind == SKind.audioOnly)) with
    | nil =>
      cases hpf : progFallbackStream yt.streams target with
      | none => simp [hsv, has, hpf, coreOps, isCoreOp]
      | some st =>
        cases hdl : env.download st DOWNLOADS_DIR "" with
        | error e => simp [hsv, has, hpf, hdl, coreOps, isCoreOp]
        | ok filePath => simp [hsv, has, hpf, hdl, coreOps, isCoreOp]
    | cons a0 rest =>
      cases hdv : env.download sv TMP_DIR "video_" with
      | error e => simp [hsv, has, hdv, coreOps, isCoreOp]
      | ok videoPath =>
        cases hda : env.download a0 TMP_DIR "audio_" with
        | error e => simp [hsv, has, hdv, hda, coreOps, isCoreOp]
        | ok audioPath =>
          rcases hm : merge_audio_video env.mergeOk (videoPath :: audioPath :: env.fs0)
              videoPath audioPath
              (get_unique_path env.fs0 (DOWNLOADS_DIR ++ "/" ++ sanitize_filename yt.title
                ++ " (" ++ toString sv.resolution ++ "p).mp4")) with ⟨ok, fs2, mev⟩
          cases ok <;>
            simp [hsv, has, hdv, hda, hm, coreOps, isCoreOp, List.filter_append]

/-- C6 (amended): for every world, URL and quality target, a non-audio-only
run of the browser front end and of the terminal front end performs exactly
the same core operations in the same order — same selections, same downloads
to the same destinations, same merge invocation and same deletions; the runs
differ only in presentation and in the browser-only best-effort thumbnail
save (and, for audio-only runs, in the conversion handling). -/
theorem web_terminal_core_equiv (env : YTDL.Env) (url : String) (target : Nat) :
    coreOps (download_video_web env url target false).2
      = coreOps (download_video env url target false) := by
  unfold download_video_web download_video
  cases h : env.resolve url with
  | error e => simp [coreOps, isCoreOp]
  | ok yt =>
    have hb := videoBranch_coreOps_eq env yt target
    simp only [coreOps] at hb ⊢
    simp [List.filter_append, isCoreOp, hb]

/-- C6, counterexample: the two front ends are *not* behaviourally identical
up to progress presentation.  In the world `envCex`, a non-audio-only run
differs in its file operations (the browser front end saves a thumbnail
file, the terminal one does not), and an audio-only run differs more deeply
(the browser front end checks the conversion exit status and output size and
keeps the input; the terminal front end deletes the input unconditionally). -/
theorem web_terminal_not_identical :
    fileOps (download_video_web envCex "u" 720 false).2
      ≠ fileOps (download_video envCex "u" 720 false) ∧
    fileOps (download_video_web envCex "u" 720 true).2
      ≠ fileOps (download_video envCex "u" 720 true) := by
  constructor <;> decide
